import Mathlib

/-!
Verification of the GR-Pilot (Toyota GR Cup) telemetry analytics core.

The repository is a front-end-dominated racing-telemetry dashboard.  The
analytical backend (normalizer, resampler, delta engine, anomaly detector,
CPI scorer, zone aggregator) is consumed through an HTTP API; where its
implementation is not part of the available sources, the corresponding
definitions below are modelled from the specification and say so in their
doc comments.  Everything else is a direct shallow embedding of the
TypeScript front-end code.  Numeric channels are embedded as rationals;
the single square root occurring in the G-G diagram is embedded over the
reals.
-/

/- ===================================================================
   Severity / priority classification (AnomalyOverlay.tsx and the older
   overlay variant).
   =================================================================== -/

namespace AnomalyOverlay

/-- Embedding of getSeverity from AnomalyOverlay.tsx (lines 72-77):
severity is computed from the anomaly type together with the absolute
anomaly score; thresholds 0.15 and 0.10 are written as 3/20 and 1/10. -/
def getSeverity (ty : String) (score : ℚ) : String :=
  if ty = "speed_anomaly" ∨ ty = "throttle_brake_overlap" ∨ |score| > 3/20 then "critical"
  else if ty = "steering_correction" ∨ |score| > 1/10 then "warning"
  else "minor"

/-- Embedding of getPriorityColor from AnomalyOverlay.tsx (lines 64-70):
same branch conditions as getSeverity, returning a colour class. -/
def getPriorityColor (ty : String) (score : ℚ) : String :=
  if ty = "speed_anomaly" ∨ ty = "throttle_brake_overlap" ∨ |score| > 3/20 then "bg-red-500"
  else if ty = "steering_correction" ∨ |score| > 1/10 then "bg-orange-500"
  else "bg-yellow-500"

/-- Colour associated to each severity band; used to state that
getPriorityColor agrees with getSeverity. -/
def severityColor (sev : String) : String :=
  if sev = "critical" then "bg-red-500"
  else if sev = "warning" then "bg-orange-500"
  else "bg-yellow-500"

end AnomalyOverlay

namespace AnomalyOverlayV1

/-- Embedding of getPriorityColor from the older overlay variant
(src/unnamed/part_006, lines 59-63): colour bands depend on the speed
delta alone, with thresholds 30 and 20 km/h. -/
def getPriorityColor (delta : ℚ) : String :=
  if delta > 30 then "bg-red-500"
  else if delta > 20 then "bg-orange-500"
  else "bg-yellow-500"

end AnomalyOverlayV1

/- ===================================================================
   G-G diagram (src/unnamed/part_008).
   =================================================================== -/

namespace GGDiagram

/-- Raw telemetry record as consumed by the GGDiagram component; each
channel may be absent (undefined in the TypeScript source). -/
structure RawPoint where
  accx_can : Option ℚ
  accy_can : Option ℚ
  speed : Option ℚ
  distance : Option ℚ

/-- One plotted point of the G-G diagram.  The over-limit flag is the
proposition the boolean in the source decides. -/
structure GGPoint where
  lateralG : ℚ
  longitudinalG : ℚ
  speed : ℚ
  distance : ℚ
  totalG : ℝ
  isOverLimit : Prop

/-- Embedding of the per-point computation in GGDiagram (part_008,
lines 24-37): a missing accx_can or accy_can channel is read as 0 (the
TypeScript reads point.accy_can || 0), totalG is the Euclidean norm of
the two acceleration channels, and the point is over-limit when totalG
exceeds the 1.2 g grip limit. -/
noncomputable def mkGGPoint (p : RawPoint) : GGPoint :=
  let lateralG := p.accy_can.getD 0
  let longitudinalG := p.accx_can.getD 0
  let totalG : ℝ :=
    Real.sqrt ((lateralG : ℝ) * (lateralG : ℝ) + (longitudinalG : ℝ) * (longitudinalG : ℝ))
  { lateralG := lateralG
    longitudinalG := longitudinalG
    speed := p.speed.getD 0
    distance := p.distance.getD 0
    totalG := totalG
    isOverLimit := totalG > 6/5 }

/-- Sampling step used by the component: max(1, floor(n / 200)). -/
def sampleStep (n : ℕ) : ℕ := max 1 (n / 200)

/-- Default record used to totalise list indexing in the embedding. -/
def dfltRaw : RawPoint := ⟨none, none, none, none⟩

/-- Embedding of the sampling loop of GGDiagram: indices 0, s, 2s, ...
below the data length, each mapped through mkGGPoint. -/
noncomputable def ggData (data : List RawPoint) : List GGPoint :=
  let step := sampleStep data.length
  (List.range ((data.length + step - 1) / step)).map
    (fun j => mkGGPoint (data.getD (j * step) dfltRaw))

end GGDiagram

/- ===================================================================
   Anomaly detector.
   =================================================================== -/

namespace Detector

/-- Modelled from the spec: the per-grid-point record of an AlignedSample
sequence (section 3 of the specification); the anomaly-detector backend
implementing it is not among the available sources.  Channels are the ones
the detector reads: distance, speed, throttle, brake pressure and steering
angle. -/
structure AlignedPoint where
  distance : ℚ
  speed : ℚ
  throttle : ℚ
  brake : ℚ
  steering : ℚ
deriving DecidableEq

/-- Default record used to totalise list indexing. -/
def dfltPoint : AlignedPoint := ⟨0, 0, 0, 0, 0⟩

/-- Modelled from the spec: the closed set of anomaly kinds. -/
inductive AnomalyKind where
  | speed_anomaly
  | throttle_brake_overlap
  | erratic_throttle
  | steering_correction
  | sudden_braking
deriving DecidableEq

/-- Modelled from the spec: a detected deviation (grid index, distance,
kind, signed magnitude). -/
structure Anomaly where
  gridIndex : ℕ
  distance : ℚ
  kind : AnomalyKind
  magnitude : ℚ
deriving DecidableEq

/-- Reducible absolute value on the rationals. -/
def qabs (x : ℚ) : ℚ := if x < 0 then -x else x

/-- Modelled from the spec: overlap persistence parameter k (default small,
e.g. 2-3); we fix the default k = 2. -/
def overlapK : ℕ := 2

/-- Modelled from the spec: tunable threshold on the absolute second
difference of the steering angle. -/
def steeringThreshold : ℚ := 10

/-- Speed trigger of the reference-based mode: the reference speed exceeds
the subject speed by more than the threshold at grid point i. -/
def speedTrigger (subj ref : List AlignedPoint) (thr : ℚ) (i : ℕ) : Prop :=
  thr < (ref.getD i dfltPoint).speed - (subj.getD i dfltPoint).speed

instance (subj ref : List AlignedPoint) (thr : ℚ) (i : ℕ) :
    Decidable (speedTrigger subj ref thr i) :=
  inferInstanceAs (Decidable (_ < _))

/-- Overlap trigger: throttle and brake are simultaneously positive over
overlapK consecutive grid points starting at i. -/
def overlapTrigger (subj : List AlignedPoint) (i : ℕ) : Prop :=
  ∀ j < overlapK, i + j < subj.length ∧
    0 < (subj.getD (i + j) dfltPoint).throttle ∧
    0 < (subj.getD (i + j) dfltPoint).brake

instance (subj : List AlignedPoint) (i : ℕ) : Decidable (overlapTrigger subj i) := by
  unfold overlapTrigger
  infer_instance

/-- Second difference of the steering angle at grid point i. -/
def steeringSecondDiff (subj : List AlignedPoint) (i : ℕ) : ℚ :=
  (subj.getD (i + 2) dfltPoint).steering - 2 * (subj.getD (i + 1) dfltPoint).steering +
    (subj.getD i dfltPoint).steering

/-- Steering trigger: the absolute second difference of the steering angle
exceeds the steering threshold (oscillatory correction). -/
def steeringTrigger (subj : List AlignedPoint) (i : ℕ) : Prop :=
  i + 2 < subj.length ∧ steeringThreshold < qabs (steeringSecondDiff subj i)

instance (subj : List AlignedPoint) (i : ℕ) : Decidable (steeringTrigger subj i) := by
  unfold steeringTrigger
  infer_instance

/-- Modelled from the spec: reference-based speed anomalies — at each grid
point the deviation reference.speed - subject.speed is compared with the
threshold and an anomaly of kind speed_anomaly with that magnitude is
emitted where it exceeds it. -/
def speedAnomalies (subj ref : List AlignedPoint) (thr : ℚ) : List Anomaly :=
  (List.range (min subj.length ref.length)).filterMap fun i =>
    if speedTrigger subj ref thr i then
      some ⟨i, (subj.getD i dfltPoint).distance, .speed_anomaly,
        (ref.getD i dfltPoint).speed - (subj.getD i dfltPoint).speed⟩
    else none

/-- Modelled from the spec: throttle-brake overlap anomalies, flagged
independently of the reference wherever the overlap trigger fires. -/
def overlapAnomalies (subj : List AlignedPoint) : List Anomaly :=
  (List.range subj.length).filterMap fun i =>
    if overlapTrigger subj i then
      some ⟨i, (subj.getD i dfltPoint).distance, .throttle_brake_overlap,
        (subj.getD i dfltPoint).throttle⟩
    else none

/-- Modelled from the spec: steering-correction anomalies, flagged where
the steering trigger fires; the magnitude is the second difference. -/
def steeringAnomalies (subj : List AlignedPoint) : List Anomaly :=
  (List.range subj.length).filterMap fun i =>
    if steeringTrigger subj i then
      some ⟨i, (subj.getD i dfltPoint).distance, .steering_correction,
        steeringSecondDiff subj i⟩
    else none

/-- Modelled from the spec: the anomaly detector in reference-based mode —
speed anomalies against the reference, plus the subject-only
throttle-brake-overlap and steering-correction flags. -/
def detectAnomalies (subj ref : List AlignedPoint) (thr : ℚ) : List Anomaly :=
  speedAnomalies subj ref thr ++ overlapAnomalies subj ++ steeringAnomalies subj

/-- Subject lap of the reference-based anomaly scenario: speeds 100, 100,
80, 100 km/h at grid distances 0, 10, 20, 30 m, all other channels 0. -/
def scenarioSubject : List AlignedPoint :=
  [⟨0, 100, 0, 0, 0⟩, ⟨10, 100, 0, 0, 0⟩, ⟨20, 80, 0, 0, 0⟩, ⟨30, 100, 0, 0, 0⟩]

/-- Reference lap of the scenario: constant 100 km/h at the same grid. -/
def scenarioReference : List AlignedPoint :=
  [⟨0, 100, 0, 0, 0⟩, ⟨10, 100, 0, 0, 0⟩, ⟨20, 100, 0, 0, 0⟩, ⟨30, 100, 0, 0, 0⟩]

/-- Lap whose throttle and brake are simultaneously positive on two
consecutive grid points. -/
def selfOverlapLap : List AlignedPoint :=
  [⟨0, 100, 50, 1, 0⟩, ⟨10, 100, 50, 1, 0⟩]

end Detector

/- ===================================================================
   Delta engine.
   =================================================================== -/

namespace DeltaEngine

open Detector (AlignedPoint dfltPoint)

/-- Modelled from the spec: minimum speed floor guarding the segment-time
division (e.g. 1 km/h). -/
def speedFloor : ℚ := 1

/-- Modelled from the spec: approximate time to traverse a grid segment of
the given length at the given speed, with the speed clamped from below. -/
def segTime (step speed : ℚ) : ℚ := step / max speed speedFloor

/-- Modelled from the spec: cumulative time-delta series — a running sum of
per-segment time differences between subject and reference, starting at the
given accumulator. -/
def cumulSeries (acc : ℚ) : List (AlignedPoint × AlignedPoint) → List ℚ
  | [] => []
  | [_] => [acc]
  | p :: q :: rest =>
      acc :: cumulSeries
        (acc + (segTime (q.1.distance - p.1.distance) p.1.speed -
          segTime (q.1.distance - p.1.distance) p.2.speed))
        (q :: rest)

/-- Modelled from the spec: result of the delta engine — pointwise speed
deltas, the integrated cumulative time-delta series, and the exact scalar
lap-time difference. -/
structure DeltaResult where
  speedDelta : List ℚ
  cumulativeTimeDelta : List ℚ
  timeDifference : ℚ

/-- Modelled from the spec: the delta engine (section 4.3); its backend
implementation is not among the available sources.  speedDelta at i is
subject.speed - reference.speed, the cumulative series integrates segment
time differences, and timeDifference is the exact lap-time difference. -/
def computeDelta (subject reference : List AlignedPoint) (tSubj tRef : ℚ) : DeltaResult :=
  { speedDelta := List.zipWith (fun s r => s.speed - r.speed) subject reference
    cumulativeTimeDelta := cumulSeries 0 (List.zip subject reference)
    timeDifference := tSubj - tRef }

end DeltaEngine

/- ===================================================================
   Composite performance index.
   =================================================================== -/

namespace CPI

/-- Modelled from the spec: the six component weights of the CPI. -/
structure Weights where
  speed : ℚ
  brake : ℚ
  throttle : ℚ
  tire : ℚ
  turnEntry : ℚ
  consistency : ℚ
deriving DecidableEq

/-- Sum of the six weights. -/
def sumWeights (w : Weights) : ℚ :=
  w.speed + w.brake + w.throttle + w.tire + w.turnEntry + w.consistency

/-- Default weight configuration: speed 0.30, brake 0.20, throttle 0.15,
tire 0.15, turn entry 0.10, consistency 0.10 (the formula displayed by
CompositePerformanceIndex.tsx, lines 213-219). -/
def defaultWeights : Weights := ⟨3/10, 1/5, 3/20, 3/20, 1/10, 1/10⟩

/-- Configuration error raised at construction time. -/
inductive ConfigError where
  | invalidWeights
deriving DecidableEq

/-- Modelled from the spec: weight configurations are validated on
construction — a configuration whose weights do not sum to 1.0 is rejected
before any per-request computation. -/
def mkWeights (w : Weights) : Except ConfigError Weights :=
  if sumWeights w = 1 then .ok w else .error .invalidWeights

/-- Modelled from the spec: the six per-lap sub-scores, each on a 0-100
scale. -/
structure Subscores where
  speed : ℚ
  brake : ℚ
  throttle : ℚ
  tire : ℚ
  turnEntry : ℚ
  consistency : ℚ
deriving DecidableEq

/-- Weighted sum of the sub-scores. -/
def weightedSum (w : Weights) (s : Subscores) : ℚ :=
  w.speed * s.speed + w.brake * s.brake + w.throttle * s.throttle +
    w.tire * s.tire + w.turnEntry * s.turnEntry + w.consistency * s.consistency

/-- Modelled from the spec: a per-lap composite score with component
breakdown. -/
structure CompositeScore where
  total : ℤ
  components : Subscores

/-- Modelled from the spec: the CPI scorer (section 4.5); its backend
implementation is not among the available sources.  The total is the
weighted sum of the sub-scores, rounded to the nearest integer and clamped
to the interval from 0 to 100. -/
def computeCPI (w : Weights) (s : Subscores) : CompositeScore :=
  { total := max 0 (min 100 (round (weightedSum w s))), components := s }

end CPI

/- ===================================================================
   Telemetry normalizer.
   =================================================================== -/

namespace Normalizer

/-- Modelled from the spec: a raw telemetry sample as consumed by the
normalizer (section 4.1); the normalizer backend is not among the available
sources.  Channels beyond distance, speed and throttle behave identically
under merging and are omitted. -/
structure RawSample where
  distance : ℚ
  speed : ℚ
  throttle : ℚ
deriving DecidableEq

/-- Default sample used to totalise list indexing. -/
def dfltSample : RawSample := ⟨0, 0, 0⟩

/-- Ordering of samples by distance, used for the normalizer sort. -/
def sampleLE (a b : RawSample) : Prop := a.distance ≤ b.distance

instance : DecidableRel sampleLE :=
  fun a b => inferInstanceAs (Decidable (a.distance ≤ b.distance))

instance : IsTotal RawSample sampleLE := ⟨fun a b => le_total a.distance b.distance⟩

instance : IsTrans RawSample sampleLE := ⟨fun _ _ _ h h' => le_trans h h'⟩

/-- Channel-wise average of the group consisting of cur together with the
previously collected samples g. -/
def avgSample (cur : RawSample) (g : List RawSample) : RawSample :=
  let n : ℚ := (g.length : ℚ) + 1
  { distance := (cur.distance + (g.map (·.distance)).sum) / n
    speed := (cur.speed + (g.map (·.speed)).sum) / n
    throttle := (cur.throttle + (g.map (·.throttle)).sum) / n }

/-- Modelled from the spec: merging loop — consecutive samples whose
distance differs by less than the resolution epsilon are collected into one
group and replaced by their channel-wise average. -/
def mergeGo (eps : ℚ) (g : List RawSample) (cur : RawSample) :
    List RawSample → List RawSample
  | [] => [avgSample cur g]
  | y :: ys =>
      if y.distance - cur.distance < eps then mergeGo eps (cur :: g) y ys
      else avgSample cur g :: mergeGo eps [] y ys

/-- Modelled from the spec: merge consecutive near-duplicate samples of a
sorted sample list by averaging. -/
def mergeClose (eps : ℚ) : List RawSample → List RawSample
  | [] => []
  | x :: xs => mergeGo eps [] x xs

/-- Modelled from the spec: a lap is an ordered sequence of samples (the
identity fields lapNumber and lapTime play no role in the claims). -/
structure Lap where
  samples : List RawSample
deriving DecidableEq

/-- Modelled from the spec: failure raised when fewer than 2 valid samples
remain after merging. -/
inductive NormError where
  | insufficientData
deriving DecidableEq

/-- Modelled from the spec: the telemetry normalizer (section 4.1) — sort
by distance, merge near-duplicate distances by averaging, and fail with
InsufficientDataError when fewer than 2 samples remain. -/
def normalize (eps : ℚ) (raw : List RawSample) : Except NormError Lap :=
  let merged := mergeClose eps (List.insertionSort sampleLE raw)
  if merged.length < 2 then .error .insufficientData else .ok ⟨merged⟩

/-- Demonstration input with a duplicated distance value. -/
def demoRaw : List RawSample := [⟨0, 100, 0⟩, ⟨0, 80, 0⟩, ⟨10, 90, 0⟩]

/-- Normalized form of demoRaw: the two distance-0 samples merged into
their average. -/
def demoLap : Lap := ⟨[⟨0, 90, 0⟩, ⟨10, 90, 0⟩]⟩

end Normalizer

/- ===================================================================
   Zone aggregator.
   =================================================================== -/

namespace Zones

open Normalizer (RawSample Lap dfltSample)

/-- Modelled from the spec: a fixed-width span of the distance axis with
aggregated statistics (further aggregates behave like avgSpeed and are
omitted). -/
structure Zone where
  zoneId : ℕ
  distanceStart : ℚ
  distanceEnd : ℚ
  avgSpeed : Option ℚ
deriving DecidableEq

/-- Default zone used to totalise list indexing. -/
def dfltZone : Zone := ⟨0, 0, 0, none⟩

/-- Total distance of a lap: the largest recorded distance. -/
def totalDistance (lap : Lap) : ℚ := (lap.samples.map (·.distance)).foldr max 0

/-- Samples of the lap falling in the span from lo inclusive to hi
exclusive. -/
def zoneSamples (lap : Lap) (lo hi : ℚ) : List RawSample :=
  lap.samples.filter (fun s => decide (lo ≤ s.distance ∧ s.distance < hi))

/-- Modelled from the spec: the zone aggregator (section 4.6) — partition
the distance axis into zoneCount equal-width spans; a zone with no samples
reports a null aggregate rather than 0. -/
def aggregateZones (lap : Lap) (zoneCount : ℕ) : List Zone :=
  let width := totalDistance lap / zoneCount
  (List.range zoneCount).map fun (i : ℕ) =>
    let inZone := zoneSamples lap ((i : ℚ) * width) (((i : ℚ) + 1) * width)
    { zoneId := i
      distanceStart := (i : ℚ) * width
      distanceEnd := ((i : ℚ) + 1) * width
      avgSpeed := if inZone.length = 0 then none
        else some ((inZone.map (·.speed)).sum / inZone.length) }

/-- Lap of total distance 1500 m used in the zone scenario. -/
def demoZoneLap : Lap := ⟨[⟨0, 100, 0⟩, ⟨750, 90, 0⟩, ⟨1500, 110, 0⟩]⟩

end Zones

/- ===================================================================
   Butterfly-effect analysis (ButterflyEffect.tsx).
   =================================================================== -/

namespace Butterfly

/-- Anomaly record as read by the ButterflyEffect component (type, speed,
throttle and a possibly absent distance). -/
structure AnomalyIn where
  type : String
  speed : ℚ
  throttle : ℚ
  distance : Option ℚ
deriving DecidableEq

/-- Embedding of the ExitSpeedImpact record of ButterflyEffect.tsx. -/
structure Impact where
  corner : String
  cornerNumber : ℕ
  exitSpeedLoss : ℚ
  cornerTimeLoss : ℚ
  straightTimeLoss : ℚ
  totalTimeLoss : ℚ
  propagationDistance : ℚ
  severity : String
deriving DecidableEq

/-- Embedding of the exit-speed-loss estimate (ButterflyEffect.tsx lines
49-53): 15 percent of speed for speed anomalies, 30 percent of throttle for
throttle-brake overlaps, 20 percent of throttle otherwise. -/
def exitSpeedLoss (a : AnomalyIn) : ℚ :=
  if a.type = "speed_anomaly" then |a.speed * (3/20)|
  else if a.type = "throttle_brake_overlap" then |a.throttle * (3/10)|
  else |a.throttle * (1/5)|

/-- Embedding of the propagation factor min(500 / 300, 4) of
ButterflyEffect.tsx line 62. -/
def propagationFactor : ℚ := min (500/300) 4

/-- Embedding of the distance-to-corner mapping of ButterflyEffect.tsx
lines 67-87. -/
def cornerInfo (d : ℚ) : String × ℕ :=
  if d < 500 then ("Turn 1 - Uphill Hairpin", 1)
  else if d < 1500 then ("Turn 3-6 - Esses Complex", 3)
  else if d < 2500 then ("Turn 11 - Hairpin", 11)
  else if d < 3500 then ("Turn 15 - Hairpin", 15)
  else if d < 4500 then ("Turn 19 - Final Corner", 19)
  else ("Corner", 1)

/-- Embedding of the impact severity bands of ButterflyEffect.tsx line 89. -/
def severityOf (totalLoss : ℚ) : String :=
  if totalLoss > 2/5 then "critical"
  else if totalLoss > 1/4 then "high"
  else if totalLoss > 3/20 then "medium"
  else "low"

/-- Embedding of one iteration of the impact loop (ButterflyEffect.tsx
lines 46-101): impacts with exit speed loss below 5 km/h are skipped;
kept impacts get corner and straight time losses, a corner label and a
severity band. -/
def mkImpact (a : AnomalyIn) : Option Impact :=
  let loss := exitSpeedLoss a
  if loss < 5 then none
  else
    let cornerTimeLoss := loss * (1/20)
    let straightTimeLoss := cornerTimeLoss * propagationFactor
    let totalLoss := cornerTimeLoss + straightTimeLoss
    let info := cornerInfo (a.distance.getD 0)
    some { corner := info.1
           cornerNumber := info.2
           exitSpeedLoss := loss
           cornerTimeLoss := cornerTimeLoss
           straightTimeLoss := straightTimeLoss
           totalTimeLoss := totalLoss
           propagationDistance := 500
           severity := severityOf totalLoss }

/-- Filter of ButterflyEffect.tsx lines 41-44: anomaly types indicating a
corner-exit issue. -/
def isExitAnomaly (a : AnomalyIn) : Bool :=
  decide (a.type = "speed_anomaly" ∨ a.type = "throttle_brake_overlap" ∨
    a.type = "erratic_throttle")

/-- Impacts derived from the first 10 exit anomalies (ButterflyEffect.tsx
lines 41-101). -/
def impacts (anomalies : List AnomalyIn) : List Impact :=
  ((anomalies.filter isExitAnomaly).take 10).filterMap mkImpact

/-- Descending order on impacts by total time loss, the comparator of the
sort at ButterflyEffect.tsx line 107. -/
def impactGE (x y : Impact) : Prop := y.totalTimeLoss ≤ x.totalTimeLoss

instance : DecidableRel impactGE := fun x y => inferInstanceAs (Decidable (_ ≤ _))

instance : IsTotal Impact impactGE := ⟨fun a b => le_total b.totalTimeLoss a.totalTimeLoss⟩

instance : IsTrans Impact impactGE := ⟨fun _ _ _ h h' => le_trans h' h⟩

/-- Embedding of the ButterflyData record. -/
structure ButterflyData where
  lap : ℕ
  impacts : List Impact
  totalPropagatedLoss : ℚ

/-- Embedding of the data assembly of ButterflyEffect.tsx lines 103-109:
the reported impacts are the top 5 by total time loss, while
totalPropagatedLoss sums over all impacts that passed the filter. -/
def butterfly (lap : ℕ) (anomalies : List AnomalyIn) : ButterflyData :=
  { lap := lap
    impacts := (List.insertionSort impactGE (impacts anomalies)).take 5
    totalPropagatedLoss := ((impacts anomalies).map (·.totalTimeLoss)).sum }

/-- Demonstration anomaly: a speed anomaly at 100 km/h. -/
def demoAnom : AnomalyIn := ⟨"speed_anomaly", 100, 0, none⟩

/-- Six identical demonstration anomalies. -/
def demoAnoms : List AnomalyIn :=
  [demoAnom, demoAnom, demoAnom, demoAnom, demoAnom, demoAnom]

/-- Impact produced by the demonstration anomaly. -/
def demoImpact : Impact :=
  ⟨"Turn 1 - Uphill Hairpin", 1, 15, 3/4, 5/4, 2, 500, "critical"⟩

end Butterfly

/- ===================================================================
   Theorems
   =================================================================== -/

namespace Butterfly

theorem propagationFactor_eq : propagationFactor = 5/3 := by
  norm_num [propagationFactor, min_def]

theorem mem_impacts {imp : Impact} {ans : List AnomalyIn} (h : imp ∈ impacts ans) :
    5 ≤ imp.exitSpeedLoss ∧ imp.totalTimeLoss = imp.exitSpeedLoss * (2/15) ∧
      0 < imp.totalTimeLoss := by
  unfold impacts at h
  rw [List.mem_filterMap] at h
  obtain ⟨a, -, hf⟩ := h
  simp only [mkImpact] at hf
  split_ifs at hf with hlt
  rw [Option.some_inj] at hf
  subst hf
  refine ⟨not_lt.1 hlt, ?_, ?_⟩
  · show exitSpeedLoss a * (1/20) + exitSpeedLoss a * (1/20) * propagationFactor = _
    rw [propagationFactor_eq]
    ring
  · show 0 < exitSpeedLoss a * (1/20) + exitSpeedLoss a * (1/20) * propagationFactor
    rw [propagationFactor_eq]
    have h5 : (5 : ℚ) ≤ exitSpeedLoss a := not_lt.1 hlt
    nlinarith

theorem butterfly_spec_parts (l : ℕ) (ans : List AnomalyIn) :
    (∀ imp ∈ (butterfly l ans).impacts, 5 ≤ imp.exitSpeedLoss) ∧
    (butterfly l ans).impacts.length ≤ 5 ∧
    List.Sorted impactGE (butterfly l ans).impacts ∧
    (butterfly l ans).totalPropagatedLoss = ((impacts ans).map (·.totalTimeLoss)).sum ∧
    ((butterfly l ans).impacts.map (·.totalTimeLoss)).sum ≤
      (butterfly l ans).totalPropagatedLoss := by
  have hperm : List.Perm (List.insertionSort impactGE (impacts ans)) (impacts ans) :=
    List.perm_insertionSort impactGE (impacts ans)
  have hmem : ∀ imp ∈ (butterfly l ans).impacts, imp ∈ impacts ans := by
    intro imp hi
    exact hperm.mem_iff.1 (List.mem_of_mem_take hi)
  refine ⟨fun imp hi => (mem_impacts (hmem imp hi)).1, List.length_take_le _ _, ?_, rfl, ?_⟩
  · exact List.Pairwise.sublist (List.take_sublist _ _)
      (List.sorted_insertionSort impactGE (impacts ans))
  · show (((List.insertionSort impactGE (impacts ans)).take 5).map
        (·.totalTimeLoss)).sum ≤ _
    have hsub : List.Sublist
        (((List.insertionSort impactGE (impacts ans)).take 5).map (·.totalTimeLoss))
        ((List.insertionSort impactGE (impacts ans)).map (·.totalTimeLoss)) :=
      List.Sublist.map _ (List.take_sublist _ _)
    refine le_trans (List.Sublist.sum_le_sum hsub ?_) ?_
    · intro x hx
      rw [List.mem_map] at hx
      obtain ⟨imp, hmem', rfl⟩ := hx
      exact (mem_impacts (hperm.mem_iff.1 hmem')).2.2.le
    · rw [(hperm.map (·.totalTimeLoss)).sum_eq]
      exact le_rfl

theorem butterfly_truncation (l : ℕ) (ans : List AnomalyIn)
    (hlen : 5 < (impacts ans).length) :
    ((butterfly l ans).impacts.map (·.totalTimeLoss)).sum <
      (butterfly l ans).totalPropagatedLoss := by
  have hperm : List.Perm (List.insertionSort impactGE (impacts ans)) (impacts ans) :=
    List.perm_insertionSort impactGE (impacts ans)
  set L := (List.insertionSort impactGE (impacts ans)).map (·.totalTimeLoss) with hL
  have hsplit : (L.take 5).sum + (L.drop 5).sum = L.sum := List.sum_take_add_sum_drop L 5
  have hLsum : L.sum = ((impacts ans).map (·.totalTimeLoss)).sum :=
    (hperm.map (·.totalTimeLoss)).sum_eq
  have hdlen : 0 < (L.drop 5).length := by
    rw [List.length_drop, hL, List.length_map, List.length_insertionSort]
    omega
  have hdpos : 0 < (L.drop 5).sum := by
    refine List.sum_pos _ ?_ ?_
    · intro x hx
      have hxL : x ∈ L := List.mem_of_mem_drop hx
      rw [hL, List.mem_map] at hxL
      obtain ⟨imp, hmem', rfl⟩ := hxL
      exact (mem_impacts (hperm.mem_iff.1 hmem')).2.2
    · intro hnil
      rw [hnil] at hdlen
      exact absurd hdlen (by simp)
  have hrep : ((butterfly l ans).impacts.map (·.totalTimeLoss)).sum = (L.take 5).sum := by
    show (((List.insertionSort impactGE (impacts ans)).take 5).map
        (·.totalTimeLoss)).sum = _
    rw [List.map_take]
  show ((butterfly l ans).impacts.map (·.totalTimeLoss)).sum <
    ((impacts ans).map (·.totalTimeLoss)).sum
  rw [hrep, ← hLsum]
  linarith

theorem mkImpact_demo : mkImpact demoAnom = some demoImpact := by
  have hloss : exitSpeedLoss demoAnom = 15 := by
    rw [show exitSpeedLoss demoAnom = |(100 : ℚ) * (3/20)| from rfl]
    rw [show (100 : ℚ) * (3/20) = 15 by norm_num]
    exact abs_of_pos (by norm_num)
  simp only [mkImpact, hloss]
  rw [if_neg (by norm_num)]
  rw [Option.some_inj]
  unfold demoImpact
  rw [propagationFactor_eq]
  have hinfo : cornerInfo ((demoAnom.distance).getD 0) = ("Turn 1 - Uphill Hairpin", 1) := by
    unfold cornerInfo
    rw [if_pos]
    show (0 : ℚ) < 500
    norm_num
  rw [hinfo]
  have hsev : severityOf (15 * (1/20) + 15 * (1/20) * (5/3)) = "critical" := by
    unfold severityOf
    rw [if_pos (by norm_num)]
  rw [hsev]
  norm_num

theorem impacts_demo : impacts demoAnoms =
    [demoImpact, demoImpact, demoImpact, demoImpact, demoImpact, demoImpact] := by
  unfold impacts
  rw [show demoAnoms.filter isExitAnomaly = demoAnoms by decide]
  rw [show demoAnoms.take 10 = demoAnoms from rfl]
  unfold demoAnoms
  simp only [List.filterMap_cons, mkImpact_demo, List.filterMap_nil]

end Butterfly

namespace Normalizer

theorem avgSample_distance_le {c : ℚ} {cur : RawSample} {g : List RawSample}
    (hcur : cur.distance ≤ c) (hg : ∀ s ∈ g, s.distance ≤ c) :
    (avgSample cur g).distance ≤ c := by
  have hn : (0 : ℚ) < (g.length : ℚ) + 1 := by positivity
  have hsum : (g.map (·.distance)).sum ≤ (g.length : ℚ) * c := by
    have := List.sum_le_card_nsmul (g.map (·.distance)) c
      (by simpa using fun s hs => hg s hs)
    simpa [nsmul_eq_mul] using this
  show (cur.distance + (g.map (·.distance)).sum) / ((g.length : ℚ) + 1) ≤ c
  rw [div_le_iff₀ hn]
  calc cur.distance + (g.map (·.distance)).sum ≤ c + (g.length : ℚ) * c :=
        add_le_add hcur hsum
    _ = c * ((g.length : ℚ) + 1) := by ring

theorem le_avgSample_distance {b : ℚ} {cur : RawSample} {g : List RawSample}
    (hcur : b ≤ cur.distance) (hg : ∀ s ∈ g, b ≤ s.distance) :
    b ≤ (avgSample cur g).distance := by
  have hn : (0 : ℚ) < (g.length : ℚ) + 1 := by positivity
  have hsum : (g.length : ℚ) * b ≤ (g.map (·.distance)).sum := by
    have := List.card_nsmul_le_sum (g.map (·.distance)) b
      (by simpa using fun s hs => hg s hs)
    simpa [nsmul_eq_mul] using this
  show b ≤ (cur.distance + (g.map (·.distance)).sum) / ((g.length : ℚ) + 1)
  rw [le_div_iff₀ hn]
  calc b * ((g.length : ℚ) + 1) = b + (g.length : ℚ) * b := by ring
    _ ≤ cur.distance + (g.map (·.distance)).sum := add_le_add hcur hsum

theorem avgSample_singleton (cur : RawSample) : avgSample cur [] = cur := by
  cases cur
  simp [avgSample]

theorem mergeGo_lb {eps b : ℚ} : ∀ {rest g : List RawSample} {cur : RawSample},
    b ≤ cur.distance → (∀ s ∈ g, b ≤ s.distance) → (∀ s ∈ rest, b ≤ s.distance) →
    ∀ s ∈ mergeGo eps g cur rest, b ≤ s.distance := by
  intro rest
  induction rest with
  | nil =>
    intro g cur hcur hg _ s hs
    rw [mergeGo] at hs
    rw [List.mem_singleton] at hs
    subst hs
    exact le_avgSample_distance hcur hg
  | cons y ys ih =>
    intro g cur hcur hg hrest s hs
    rw [mergeGo] at hs
    split_ifs at hs with hcl
    · exact ih (hrest y (List.mem_cons_self y ys))
        (fun t ht => (List.mem_cons.1 ht).elim (fun h => h ▸ hcur) (hg t))
        (fun t ht => hrest t (List.mem_cons_of_mem y ht)) s hs
    · rcases List.mem_cons.1 hs with rfl | hs'
      · exact le_avgSample_distance hcur hg
      · exact ih (hrest y (List.mem_cons_self y ys)) (by simp)
          (fun t ht => hrest t (List.mem_cons_of_mem y ht)) s hs'

theorem mergeGo_chain {eps : ℚ} : ∀ {rest g : List RawSample} {cur : RawSample},
    (∀ s ∈ g, s.distance ≤ cur.distance) →
    List.Sorted sampleLE (cur :: rest) →
    List.Chain' (fun a b => a.distance + eps ≤ b.distance) (mergeGo eps g cur rest) := by
  intro rest
  induction rest with
  | nil =>
    intro g cur _ _
    rw [mergeGo]
    exact List.chain'_singleton _
  | cons y ys ih =>
    intro g cur hg hsort
    rw [List.sorted_cons] at hsort
    obtain ⟨hcy, hsort'⟩ := hsort
    have hcury : cur.distance ≤ y.distance := hcy y (List.mem_cons_self y ys)
    rw [mergeGo]
    split_ifs with hcl
    · exact ih
        (fun t ht => (List.mem_cons.1 ht).elim (fun h => h ▸ hcury)
          (fun h => le_trans (hg t h) hcury))
        hsort'
    · rw [List.chain'_cons']
      refine ⟨?_, ih (by simp) hsort'⟩
      intro z hz
      have hzmem : z ∈ mergeGo eps [] y ys := List.mem_of_mem_head? hz
      have hzlb : y.distance ≤ z.distance := by
        refine mergeGo_lb le_rfl (by simp) ?_ z hzmem
        intro t ht
        rw [List.sorted_cons] at hsort'
        exact hsort'.1 t ht
      have havg : (avgSample cur g).distance ≤ cur.distance :=
        avgSample_distance_le le_rfl hg
      have heps : eps ≤ y.distance - cur.distance := not_lt.1 hcl
      linarith

theorem mergeClose_chain {eps : ℚ} {l : List RawSample} (hl : List.Sorted sampleLE l) :
    List.Chain' (fun a b => a.distance + eps ≤ b.distance) (mergeClose eps l) := by
  cases l with
  | nil =>
    rw [mergeClose]
    exact List.chain'_nil
  | cons x xs =>
    rw [mergeClose]
    exact mergeGo_chain (by simp) hl

theorem mergeGo_id {eps : ℚ} : ∀ {rest : List RawSample} {cur : RawSample},
    List.Chain' (fun a b => a.distance + eps ≤ b.distance) (cur :: rest) →
    mergeGo eps [] cur rest = cur :: rest := by
  intro rest
  induction rest with
  | nil =>
    intro cur _
    rw [mergeGo, avgSample_singleton]
  | cons y ys ih =>
    intro cur hchain
    rw [List.chain'_cons] at hchain
    obtain ⟨hcy, hchain'⟩ := hchain
    rw [mergeGo, if_neg (by linarith), avgSample_singleton, ih hchain']

theorem normalize_ok {eps : ℚ} {raw : List RawSample} {lap : Lap}
    (h : normalize eps raw = .ok lap) :
    lap.samples = mergeClose eps (List.insertionSort sampleLE raw) ∧
      2 ≤ lap.samples.length := by
  simp only [normalize] at h
  split_ifs at h with hlen
  cases h
  exact ⟨rfl, not_lt.1 hlen⟩

theorem chain_sorted {eps : ℚ} {l : List RawSample} (heps : 0 ≤ eps)
    (h : List.Chain' (fun a b => a.distance + eps ≤ b.distance) l) :
    List.Sorted sampleLE l := by
  rw [List.Sorted, ← List.chain'_iff_pairwise]
  exact h.imp (fun {a b} hab => by unfold sampleLE; linarith)

theorem normalize_demo : normalize (1/20) demoRaw = .ok demoLap := by
  have hsorted : List.Sorted sampleLE demoRaw := by
    norm_num [demoRaw, List.sorted_cons, sampleLE]
  have h1 : List.insertionSort sampleLE demoRaw = demoRaw := hsorted.insertionSort_eq
  have h2 : mergeClose (1/20) demoRaw = demoLap.samples := by
    show mergeGo (1/20) [] ⟨0, 100, 0⟩ [⟨0, 80, 0⟩, ⟨10, 90, 0⟩] = _
    rw [mergeGo, if_pos (by norm_num)]
    rw [mergeGo, if_neg (by norm_num)]
    rw [mergeGo]
    norm_num [avgSample, demoLap]
  simp only [normalize]
  rw [h1, h2, if_neg (by norm_num [demoLap])]

end Normalizer

namespace Zones

theorem demo_total : totalDistance demoZoneLap = 1500 := by
  norm_num [totalDistance, demoZoneLap, max_def]

theorem demo_spans :
    (aggregateZones demoZoneLap 3).map (fun z => (z.distanceStart, z.distanceEnd)) =
      [(0, 500), (500, 1000), (1000, 1500)] := by
  unfold aggregateZones
  rw [demo_total, show List.range 3 = [0, 1, 2] from rfl]
  norm_num

theorem partition_aux (lap : Normalizer.Lap) (n : ℕ) (hn : 1 ≤ n) :
    (aggregateZones lap n).length = n ∧
    (∀ i < n, ((aggregateZones lap n).getD i dfltZone).distanceStart =
        i * (totalDistance lap / n) ∧
      ((aggregateZones lap n).getD i dfltZone).distanceEnd =
        (i + 1) * (totalDistance lap / n)) ∧
    ((aggregateZones lap n).getD (n - 1) dfltZone).distanceEnd = totalDistance lap ∧
    List.Chain' (fun z z' => z.distanceEnd = z'.distanceStart) (aggregateZones lap n) ∧
    (0 < totalDistance lap →
      List.Chain' (fun z z' => z.distanceStart < z'.distanceStart)
        (aggregateZones lap n)) := by
  have hlen : (aggregateZones lap n).length = n := by
    simp [aggregateZones]
  have hchar : ∀ i < n, ((aggregateZones lap n).getD i dfltZone).distanceStart =
      i * (totalDistance lap / n) ∧
      ((aggregateZones lap n).getD i dfltZone).distanceEnd =
        (i + 1) * (totalDistance lap / n) := by
    intro i hi
    have hilen : i < (aggregateZones lap n).length := by rw [hlen]; exact hi
    rw [List.getD_eq_getElem _ _ hilen]
    unfold aggregateZones
    simp [hi]
  obtain ⟨m, rfl⟩ : ∃ m, n = m + 1 := ⟨n - 1, by omega⟩
  refine ⟨hlen, hchar, ?_, ?_, ?_⟩
  · have h := (hchar m (by omega)).2
    simp only [Nat.add_sub_cancel]
    rw [h]
    have : ((m : ℚ) + 1) ≠ 0 := by positivity
    push_cast
    field_simp
  · unfold aggregateZones
    rw [List.chain'_map]
    refine (List.chain'_range_succ _ m).2 ?_
    intro k hk
    dsimp only
    push_cast
    ring
  · intro htot
    have hw : 0 < totalDistance lap / ((m : ℚ) + 1) := by positivity
    unfold aggregateZones
    rw [List.chain'_map]
    refine (List.chain'_range_succ _ m).2 ?_
    intro k hk
    dsimp only
    push_cast
    nlinarith [hw]

end Zones

namespace Detector

theorem mem_speedAnomalies {a : Anomaly} {subj ref : List AlignedPoint} {thr : ℚ} :
    a ∈ speedAnomalies subj ref thr ↔
      ∃ i, i < min subj.length ref.length ∧ speedTrigger subj ref thr i ∧
        a = ⟨i, (subj.getD i dfltPoint).distance, .speed_anomaly,
          (ref.getD i dfltPoint).speed - (subj.getD i dfltPoint).speed⟩ := by
  unfold speedAnomalies
  rw [List.mem_filterMap]
  constructor
  · rintro ⟨i, hi, hf⟩
    rw [List.mem_range] at hi
    split_ifs at hf with ht
    exact ⟨i, hi, ht, (Option.some_injective _ hf).symm⟩
  · rintro ⟨i, hi, ht, rfl⟩
    exact ⟨i, List.mem_range.mpr hi, by rw [if_pos ht]⟩

theorem kind_of_mem_overlapAnomalies {a : Anomaly} {subj : List AlignedPoint}
    (h : a ∈ overlapAnomalies subj) : a.kind = .throttle_brake_overlap := by
  unfold overlapAnomalies at h
  rw [List.mem_filterMap] at h
  obtain ⟨i, -, hf⟩ := h
  split_ifs at hf
  cases hf
  rfl

theorem kind_of_mem_steeringAnomalies {a : Anomaly} {subj : List AlignedPoint}
    (h : a ∈ steeringAnomalies subj) : a.kind = .steering_correction := by
  unfold steeringAnomalies at h
  rw [List.mem_filterMap] at h
  obtain ⟨i, -, hf⟩ := h
  split_ifs at hf
  cases hf
  rfl

theorem getD_throttle_zero {L : List AlignedPoint} (h : ∀ p ∈ L, p.throttle = 0) (n : ℕ) :
    (L.getD n dfltPoint).throttle = 0 := by
  by_cases hn : n < L.length
  · rw [List.getD_eq_getElem _ _ hn]
    exact h _ (List.getElem_mem hn)
  · rw [List.getD_eq_default _ _ (le_of_not_lt hn)]
    rfl

theorem getD_steering_zero {L : List AlignedPoint} (h : ∀ p ∈ L, p.steering = 0) (n : ℕ) :
    (L.getD n dfltPoint).steering = 0 := by
  by_cases hn : n < L.length
  · rw [List.getD_eq_getElem _ _ hn]
    exact h _ (List.getElem_mem hn)
  · rw [List.getD_eq_default _ _ (le_of_not_lt hn)]
    rfl

theorem overlapAnomalies_eq_nil {L : List AlignedPoint} (h : ∀ p ∈ L, p.throttle = 0) :
    overlapAnomalies L = [] := by
  unfold overlapAnomalies
  rw [List.filterMap_eq_nil_iff]
  intro i hi
  have hneg : ¬ overlapTrigger L i := by
    intro htrig
    have h0 := (htrig 0 (by norm_num [overlapK])).2.1
    rw [getD_throttle_zero h] at h0
    exact lt_irrefl 0 h0
  rw [if_neg hneg]

theorem steeringAnomalies_eq_nil {L : List AlignedPoint} (h : ∀ p ∈ L, p.steering = 0) :
    steeringAnomalies L = [] := by
  unfold steeringAnomalies
  rw [List.filterMap_eq_nil_iff]
  intro i hi
  have hneg : ¬ steeringTrigger L i := by
    intro htrig
    have h2 := htrig.2
    have hz : steeringSecondDiff L i = 0 := by
      unfold steeringSecondDiff
      rw [getD_steering_zero h, getD_steering_zero h, getD_steering_zero h]
      ring
    rw [hz] at h2
    norm_num [qabs, steeringThreshold] at h2
  rw [if_neg hneg]

theorem speedAnomalies_scenario :
    speedAnomalies scenarioSubject scenarioReference 15 =
      [⟨2, 20, .speed_anomaly, 20⟩] := by
  have h0 : ¬ speedTrigger scenarioSubject scenarioReference 15 0 := by
    show ¬((15 : ℚ) < 100 - 100)
    norm_num
  have h1 : ¬ speedTrigger scenarioSubject scenarioReference 15 1 := by
    show ¬((15 : ℚ) < 100 - 100)
    norm_num
  have h2 : speedTrigger scenarioSubject scenarioReference 15 2 := by
    show (15 : ℚ) < 100 - 80
    norm_num
  have h3 : ¬ speedTrigger scenarioSubject scenarioReference 15 3 := by
    show ¬((15 : ℚ) < 100 - 100)
    norm_num
  unfold speedAnomalies
  rw [show min scenarioSubject.length scenarioReference.length = 4 from rfl,
    show List.range 4 = [0, 1, 2, 3] from rfl]
  rw [List.filterMap_cons, List.filterMap_cons, List.filterMap_cons, List.filterMap_cons,
    List.filterMap_nil]
  rw [if_neg h0, if_neg h1, if_pos h2, if_neg h3]
  have hd : (scenarioSubject.getD 2 dfltPoint).distance = 20 := rfl
  have hr : (scenarioReference.getD 2 dfltPoint).speed = 100 := rfl
  have hs : (scenarioSubject.getD 2 dfltPoint).speed = 80 := rfl
  rw [hd, hr, hs]
  norm_num

end Detector


/-- C1, counterexample: severity is not determined by the magnitude of the
anomaly alone — two anomalies with the same score 0.01 receive severities
critical and minor depending on their type. -/
theorem severity_not_magnitude_only_cex :
    AnomalyOverlay.getSeverity "speed_anomaly" (1/100) = "critical" ∧
    AnomalyOverlay.getSeverity "erratic_throttle" (1/100) = "minor" := by
  constructor
  · unfold AnomalyOverlay.getSeverity
    simp
  · unfold AnomalyOverlay.getSeverity
    rw [show |(1 : ℚ)/100| = 1/100 by norm_num]
    norm_num
    decide

/-- C1, amended: severity is determined jointly by the anomaly type and the
absolute anomaly score — critical when the type is speed_anomaly or
throttle_brake_overlap or the absolute score exceeds 0.15, warning when the
type is steering_correction or the absolute score exceeds 0.10, minor
otherwise; the priority colour always agrees with the severity band; and in
the older overlay variant the colour bands are cut from the speed delta
alone at 30 and 20 km/h. -/
theorem getSeverity_characterization (ty : String) (s : ℚ) :
    (AnomalyOverlay.getSeverity ty s = "critical" ↔
      (ty = "speed_anomaly" ∨ ty = "throttle_brake_overlap" ∨ |s| > 3/20)) ∧
    (AnomalyOverlay.getSeverity ty s = "warning" ↔
      (¬(ty = "speed_anomaly" ∨ ty = "throttle_brake_overlap" ∨ |s| > 3/20) ∧
        (ty = "steering_correction" ∨ |s| > 1/10))) ∧
    (AnomalyOverlay.getSeverity ty s = "minor" ↔
      (¬(ty = "speed_anomaly" ∨ ty = "throttle_brake_overlap" ∨ |s| > 3/20) ∧
        ¬(ty = "steering_correction" ∨ |s| > 1/10))) ∧
    AnomalyOverlay.getPriorityColor ty s =
      AnomalyOverlay.severityColor (AnomalyOverlay.getSeverity ty s) ∧
    (∀ d : ℚ, (AnomalyOverlayV1.getPriorityColor d = "bg-red-500" ↔ 30 < d) ∧
      (AnomalyOverlayV1.getPriorityColor d = "bg-orange-500" ↔ 20 < d ∧ d ≤ 30) ∧
      (AnomalyOverlayV1.getPriorityColor d = "bg-yellow-500" ↔ d ≤ 20)) := by
  refine ⟨?_, ?_, ?_, ?_, ?_⟩
  · unfold AnomalyOverlay.getSeverity
    split_ifs with h1 h2 <;> simp_all
  · unfold AnomalyOverlay.getSeverity
    split_ifs with h1 h2 <;> simp_all
  · unfold AnomalyOverlay.getSeverity
    split_ifs with h1 h2 <;> simp_all
  · unfold AnomalyOverlay.getSeverity AnomalyOverlay.getPriorityColor
      AnomalyOverlay.severityColor
    split_ifs <;> simp_all
  · intro d
    unfold AnomalyOverlayV1.getPriorityColor
    split_ifs with h1 h2 <;>
      refine ⟨?_, ?_, ?_⟩ <;> simp_all <;> linarith

/-- C9: every sampled point of the G-G diagram has totalG equal to the
Euclidean norm of its two acceleration channels (hence nonnegative) and is
classified over-limit exactly when totalG exceeds 1.2 g; a record whose two
acceleration channels are both absent yields totalG = 0 and is never
over-limit. -/
theorem ggDiagram_totalG_spec :
    (∀ (data : List GGDiagram.RawPoint), ∀ p ∈ GGDiagram.ggData data,
      p.totalG = Real.sqrt ((p.lateralG : ℝ) * p.lateralG +
        (p.longitudinalG : ℝ) * p.longitudinalG) ∧
      0 ≤ p.totalG ∧ (p.isOverLimit ↔ p.totalG > 6/5)) ∧
    (∀ q : GGDiagram.RawPoint, q.accx_can = none → q.accy_can = none →
      (GGDiagram.mkGGPoint q).totalG = 0 ∧ ¬(GGDiagram.mkGGPoint q).isOverLimit) := by
  constructor
  · intro data p hp
    simp only [GGDiagram.ggData, List.mem_map] at hp
    obtain ⟨j, -, rfl⟩ := hp
    refine ⟨rfl, Real.sqrt_nonneg _, Iff.rfl⟩
  · intro q hx hy
    have h0 : (GGDiagram.mkGGPoint q).totalG = 0 := by
      simp [GGDiagram.mkGGPoint, hx, hy]
    refine ⟨h0, ?_⟩
    show ¬((GGDiagram.mkGGPoint q).totalG > 6/5)
    rw [h0]
    norm_num

/-- C9, witness: evaluation of the G-G point construction on a singleton
data list with a present longitudinal channel, and on a record with both
acceleration channels absent. -/
theorem ggDiagram_totalG_spec_witness :
    ((GGDiagram.mkGGPoint ⟨some 1, none, none, none⟩).totalG =
      Real.sqrt ((0 : ℝ) * 0 + (1 : ℝ) * 1) ∧
      0 ≤ (GGDiagram.mkGGPoint ⟨some 1, none, none, none⟩).totalG ∧
      ((GGDiagram.mkGGPoint ⟨some 1, none, none, none⟩).isOverLimit ↔
        (GGDiagram.mkGGPoint ⟨some 1, none, none, none⟩).totalG > 6/5)) ∧
    (GGDiagram.mkGGPoint GGDiagram.dfltRaw).totalG = 0 ∧
    ¬(GGDiagram.mkGGPoint GGDiagram.dfltRaw).isOverLimit := by
  have hmem : GGDiagram.mkGGPoint ⟨some 1, none, none, none⟩ ∈
      GGDiagram.ggData [⟨some 1, none, none, none⟩] := by
    simp [GGDiagram.ggData, GGDiagram.sampleStep, GGDiagram.dfltRaw]
  have h1 := (ggDiagram_totalG_spec.1 [⟨some 1, none, none, none⟩] _ hmem)
  have h2 := ggDiagram_totalG_spec.2 GGDiagram.dfltRaw rfl rfl
  exact ⟨⟨by simpa [GGDiagram.mkGGPoint] using h1.1, h1.2.1, h1.2.2⟩, h2.1, h2.2⟩

/-- C2: on the scenario subject (speeds 100, 100, 80, 100 at distances 0,
10, 20, 30) against the constant-100 reference with threshold 15, the
detector returns exactly one anomaly, at grid index 2 and distance 20, of
kind speed_anomaly with magnitude 20; in general a speed anomaly with
magnitude reference.speed - subject.speed is emitted at grid index i
exactly when that difference exceeds the threshold. -/
theorem detectAnomalies_speed_scenario_and_char :
    Detector.detectAnomalies Detector.scenarioSubject Detector.scenarioReference 15 =
      [⟨2, 20, .speed_anomaly, 20⟩] ∧
    ∀ (subj ref : List Detector.AlignedPoint) (thr : ℚ) (i : ℕ) (m : ℚ),
      subj.length = ref.length →
      ((∃ a ∈ Detector.detectAnomalies subj ref thr,
          a.kind = Detector.AnomalyKind.speed_anomaly ∧ a.gridIndex = i ∧ a.magnitude = m) ↔
        (i < subj.length ∧
          m = (ref.getD i Detector.dfltPoint).speed -
            (subj.getD i Detector.dfltPoint).speed ∧ thr < m)) := by
  constructor
  · unfold Detector.detectAnomalies
    rw [Detector.speedAnomalies_scenario, Detector.overlapAnomalies_eq_nil (by decide),
      Detector.steeringAnomalies_eq_nil (by decide)]
    rfl
  · intro subj ref thr i m hlen
    have hmin : min subj.length ref.length = subj.length := by
      rw [hlen, min_self]
    constructor
    · rintro ⟨a, ha, hk, hgi, hm⟩
      rcases List.mem_append.1 ha with ha' | hst
      · rcases List.mem_append.1 ha' with hsp | hov
        · obtain ⟨i', hi', ht', rfl⟩ := Detector.mem_speedAnomalies.1 hsp
          simp only at hgi hm
          subst hgi
          rw [hmin] at hi'
          exact ⟨hi', hm.symm, hm ▸ ht'⟩
        · rw [Detector.kind_of_mem_overlapAnomalies hov] at hk
          cases hk
      · rw [Detector.kind_of_mem_steeringAnomalies hst] at hk
        cases hk
    · rintro ⟨hi, hm, ht⟩
      refine ⟨⟨i, (subj.getD i Detector.dfltPoint).distance, .speed_anomaly,
        (ref.getD i Detector.dfltPoint).speed - (subj.getD i Detector.dfltPoint).speed⟩,
        ?_, rfl, rfl, hm.symm⟩
      unfold Detector.detectAnomalies
      refine List.mem_append_left _ (List.mem_append_left _ ?_)
      exact Detector.mem_speedAnomalies.2 ⟨i, by rw [hmin]; exact hi, by
        unfold Detector.speedTrigger
        rw [← hm]
        exact ht, rfl⟩

/-- C2, witness: the speed-anomaly characterisation applied to the concrete
scenario lists at grid index 2 with magnitude 20 and threshold 15. -/
theorem detectAnomalies_speed_char_witness :
    ∃ a ∈ Detector.detectAnomalies Detector.scenarioSubject Detector.scenarioReference 15,
      a.kind = Detector.AnomalyKind.speed_anomaly ∧ a.gridIndex = 2 ∧ a.magnitude = 20 :=
  (detectAnomalies_speed_scenario_and_char.2 Detector.scenarioSubject
    Detector.scenarioReference 15 2 20 rfl).2
    (by refine ⟨by decide, ?_, by norm_num⟩; show (20 : ℚ) = 100 - 80; norm_num)

/-- C6, counterexample: a lap with throttle and brake simultaneously
positive on two consecutive grid points, compared to itself with the
positive threshold 15, yields a non-empty anomaly list (the
throttle-brake-overlap flag fires independently of the reference), so
self-comparison does not always return an empty sequence. -/
theorem detect_self_not_empty_cex :
    Detector.detectAnomalies Detector.selfOverlapLap Detector.selfOverlapLap 15 ≠ [] := by
  intro hnil
  have hmem : (⟨0, 0, .throttle_brake_overlap, 50⟩ : Detector.Anomaly) ∈
      Detector.detectAnomalies Detector.selfOverlapLap Detector.selfOverlapLap 15 := by
    unfold Detector.detectAnomalies
    refine List.mem_append_left _ (List.mem_append_right _ ?_)
    unfold Detector.overlapAnomalies
    rw [List.mem_filterMap]
    refine ⟨0, by decide, ?_⟩
    rw [if_pos (by decide)]
    rfl
  rw [hnil] at hmem
  cases hmem

/-- C6, amended: comparing a lap to itself never yields a speed anomaly
(zero deviation), and the detector returns a list rather than failing; the
result is the empty list whenever the lap additionally has no persistent
throttle-brake overlap and no steering-correction spike, so in particular
when no deviation of any kind exceeds its threshold the result is the empty
sequence. -/
theorem detect_self_no_speed_anomalies (L : List Detector.AlignedPoint) (t : ℚ)
    (ht : 0 < t) :
    (∀ a ∈ Detector.detectAnomalies L L t, a.kind ≠ Detector.AnomalyKind.speed_anomaly) ∧
    ((∀ i < L.length, ¬ Detector.overlapTrigger L i) →
      (∀ i < L.length, ¬ Detector.steeringTrigger L i) →
        Detector.detectAnomalies L L t = []) := by
  constructor
  · intro a ha hk
    rcases List.mem_append.1 ha with ha' | hst
    · rcases List.mem_append.1 ha' with hsp | hov
      · obtain ⟨i, -, htr, -⟩ := Detector.mem_speedAnomalies.1 hsp
        unfold Detector.speedTrigger at htr
        rw [sub_self] at htr
        exact absurd htr (not_lt.2 ht.le)
      · rw [Detector.kind_of_mem_overlapAnomalies hov] at hk
        cases hk
    · rw [Detector.kind_of_mem_steeringAnomalies hst] at hk
      cases hk
  · intro hov hst
    have h1 : Detector.speedAnomalies L L t = [] := by
      unfold Detector.speedAnomalies
      rw [List.filterMap_eq_nil_iff]
      intro i hi
      rw [if_neg]
      unfold Detector.speedTrigger
      rw [sub_self]
      exact not_lt.2 ht.le
    have h2 : Detector.overlapAnomalies L = [] := by
      unfold Detector.overlapAnomalies
      rw [List.filterMap_eq_nil_iff]
      intro i hi
      rw [if_neg (hov i (List.mem_range.1 hi))]
    have h3 : Detector.steeringAnomalies L = [] := by
      unfold Detector.steeringAnomalies
      rw [List.filterMap_eq_nil_iff]
      intro i hi
      rw [if_neg (hst i (List.mem_range.1 hi))]
    unfold Detector.detectAnomalies
    rw [h1, h2, h3]
    rfl

/-- C6, witness: the amended statement applied to the concrete constant
reference lap with threshold 15 — the detector returns the empty list. -/
theorem detect_self_witness :
    Detector.detectAnomalies Detector.scenarioReference Detector.scenarioReference 15 = [] :=
  (detect_self_no_speed_anomalies Detector.scenarioReference 15 (by norm_num)).2
    (by decide)
    (by
      intro i hi htrig
      have h2 := htrig.2
      have hz : Detector.steeringSecondDiff Detector.scenarioReference i = 0 := by
        unfold Detector.steeringSecondDiff
        rw [Detector.getD_steering_zero (by decide), Detector.getD_steering_zero (by decide),
          Detector.getD_steering_zero (by decide)]
        ring
      rw [hz] at h2
      norm_num [Detector.qabs, Detector.steeringThreshold] at h2)

/-- C5: the pointwise speed delta of the delta engine equals subject speed
minus reference speed at every index, and is therefore antisymmetric under
swapping subject and reference. -/
theorem computeDelta_antisym (A B : List Detector.AlignedPoint) (tA tB : ℚ)
    (hlen : A.length = B.length) (i : ℕ) (hi : i < A.length) :
    (DeltaEngine.computeDelta A B tA tB).speedDelta.getD i 0 =
      (A.getD i Detector.dfltPoint).speed - (B.getD i Detector.dfltPoint).speed ∧
    (DeltaEngine.computeDelta A B tA tB).speedDelta.getD i 0 =
      -((DeltaEngine.computeDelta B A tB tA).speedDelta.getD i 0) := by
  have hiB : i < B.length := hlen ▸ hi
  have hzAB : i < (List.zipWith (fun s r : Detector.AlignedPoint => s.speed - r.speed)
      A B).length := by
    rw [List.length_zipWith, hlen, min_self]
    exact hiB
  have hzBA : i < (List.zipWith (fun s r : Detector.AlignedPoint => s.speed - r.speed)
      B A).length := by
    rw [List.length_zipWith, hlen, min_self]
    exact hiB
  have hAB : (DeltaEngine.computeDelta A B tA tB).speedDelta.getD i 0 =
      (A.getD i Detector.dfltPoint).speed - (B.getD i Detector.dfltPoint).speed := by
    show (List.zipWith _ A B).getD i 0 = _
    rw [List.getD_eq_getElem _ _ hzAB, List.getElem_zipWith,
      List.getD_eq_getElem _ _ hi, List.getD_eq_getElem _ _ hiB]
  have hBA : (DeltaEngine.computeDelta B A tB tA).speedDelta.getD i 0 =
      (B.getD i Detector.dfltPoint).speed - (A.getD i Detector.dfltPoint).speed := by
    show (List.zipWith _ B A).getD i 0 = _
    rw [List.getD_eq_getElem _ _ hzBA, List.getElem_zipWith,
      List.getD_eq_getElem _ _ hi, List.getD_eq_getElem _ _ hiB]
  refine ⟨hAB, ?_⟩
  rw [hAB, hBA]
  ring

/-- C5, witness: the delta antisymmetry applied to the two concrete
scenario laps at grid index 2. -/
theorem computeDelta_antisym_witness :
    (DeltaEngine.computeDelta Detector.scenarioSubject Detector.scenarioReference
        95 90).speedDelta.getD 2 0 =
      (Detector.scenarioSubject.getD 2 Detector.dfltPoint).speed -
        (Detector.scenarioReference.getD 2 Detector.dfltPoint).speed ∧
    (DeltaEngine.computeDelta Detector.scenarioSubject Detector.scenarioReference
        95 90).speedDelta.getD 2 0 =
      -((DeltaEngine.computeDelta Detector.scenarioReference Detector.scenarioSubject
        90 95).speedDelta.getD 2 0) :=
  computeDelta_antisym Detector.scenarioSubject Detector.scenarioReference 95 90 rfl 2
    (by decide)

/-- C3: the CPI total is the weighted sum of the sub-scores rounded to the
nearest integer and clamped to the interval from 0 to 100 (hence always in
bounds), the default weights 0.30, 0.20, 0.15, 0.15, 0.10, 0.10 sum to 1
and are accepted at construction, and any weight configuration whose sum is
not 1 is rejected at construction time. -/
theorem computeCPI_bounds_and_weights :
    (∀ (w : CPI.Weights) (s : CPI.Subscores),
      (CPI.computeCPI w s).total = max 0 (min 100 (round (CPI.weightedSum w s))) ∧
      0 ≤ (CPI.computeCPI w s).total ∧ (CPI.computeCPI w s).total ≤ 100) ∧
    CPI.sumWeights CPI.defaultWeights = 1 ∧
    CPI.mkWeights CPI.defaultWeights = .ok CPI.defaultWeights ∧
    (∀ w : CPI.Weights, CPI.sumWeights w ≠ 1 →
      CPI.mkWeights w = .error .invalidWeights) := by
  refine ⟨fun w s => ⟨rfl, le_max_left _ _, max_le (by norm_num) (min_le_left _ _)⟩,
    ?_, ?_, ?_⟩
  · norm_num [CPI.sumWeights, CPI.defaultWeights]
  · unfold CPI.mkWeights
    rw [if_pos]
    norm_num [CPI.sumWeights, CPI.defaultWeights]
  · intro w hw
    unfold CPI.mkWeights
    rw [if_neg hw]

/-- C3, witness: bounds of the CPI total at the default weights with all
sub-scores 50, and rejection of a weight configuration summing to 2. -/
theorem computeCPI_bounds_witness :
    (0 ≤ (CPI.computeCPI CPI.defaultWeights ⟨50, 50, 50, 50, 50, 50⟩).total ∧
      (CPI.computeCPI CPI.defaultWeights ⟨50, 50, 50, 50, 50, 50⟩).total ≤ 100) ∧
    CPI.mkWeights ⟨1, 1, 0, 0, 0, 0⟩ = .error .invalidWeights :=
  ⟨⟨(computeCPI_bounds_and_weights.1 CPI.defaultWeights ⟨50, 50, 50, 50, 50, 50⟩).2.1,
    (computeCPI_bounds_and_weights.1 CPI.defaultWeights ⟨50, 50, 50, 50, 50, 50⟩).2.2⟩,
    computeCPI_bounds_and_weights.2.2.2 ⟨1, 1, 0, 0, 0, 0⟩ (by norm_num [CPI.sumWeights])⟩

/-- C4: every lap returned by normalize has strictly increasing sample
distances — duplicate-distance samples having been merged and averaged
during normalization. -/
theorem normalize_strict_mono (eps : ℚ) (raw : List Normalizer.RawSample)
    (lap : Normalizer.Lap) (heps : 0 < eps)
    (h : Normalizer.normalize eps raw = .ok lap) (i : ℕ)
    (hi : i + 1 < lap.samples.length) :
    (lap.samples.getD i Normalizer.dfltSample).distance <
      (lap.samples.getD (i + 1) Normalizer.dfltSample).distance := by
  obtain ⟨hs, -⟩ := Normalizer.normalize_ok h
  have hchain : List.Chain' (fun a b => a.distance + eps ≤ b.distance) lap.samples := by
    rw [hs]
    exact Normalizer.mergeClose_chain (List.sorted_insertionSort _ _)
  have hi1 : i < lap.samples.length := by omega
  have hstep := List.chain'_iff_get.1 hchain i (by omega)
  simp only [List.get_eq_getElem] at hstep
  rw [List.getD_eq_getElem _ _ hi1, List.getD_eq_getElem _ _ hi]
  linarith

/-- C4, witness: normalizing the demonstration input with resolution 1/20
merges its two distance-0 samples and yields strictly increasing
distances. -/
theorem normalize_strict_mono_witness :
    (0 : ℚ) < 1/20 ∧
    Normalizer.normalize (1/20) Normalizer.demoRaw = .ok Normalizer.demoLap ∧
    (Normalizer.demoLap.samples.getD 0 Normalizer.dfltSample).distance <
      (Normalizer.demoLap.samples.getD 1 Normalizer.dfltSample).distance :=
  ⟨by norm_num, Normalizer.normalize_demo,
    normalize_strict_mono (1/20) Normalizer.demoRaw Normalizer.demoLap (by norm_num)
      Normalizer.normalize_demo 0 (by decide)⟩

/-- C8: normalization is idempotent — re-normalizing the samples of a lap
returned by normalize returns that same lap. -/
theorem normalize_idempotent (eps : ℚ) (raw : List Normalizer.RawSample)
    (lap : Normalizer.Lap) (heps : 0 < eps)
    (h : Normalizer.normalize eps raw = .ok lap) :
    Normalizer.normalize eps lap.samples = .ok lap := by
  obtain ⟨hs, hlen⟩ := Normalizer.normalize_ok h
  have hchain : List.Chain' (fun a b => a.distance + eps ≤ b.distance) lap.samples := by
    rw [hs]
    exact Normalizer.mergeClose_chain (List.sorted_insertionSort _ _)
  have hsorted : List.Sorted Normalizer.sampleLE lap.samples :=
    Normalizer.chain_sorted heps.le hchain
  have h1 : List.insertionSort Normalizer.sampleLE lap.samples = lap.samples :=
    hsorted.insertionSort_eq
  have h2 : Normalizer.mergeClose eps lap.samples = lap.samples := by
    rcases hsm : lap.samples with _ | ⟨x, xs⟩
    · rw [Normalizer.mergeClose]
    · rw [Normalizer.mergeClose]
      exact Normalizer.mergeGo_id (hsm ▸ hchain)
  simp only [Normalizer.normalize]
  rw [h1, h2, if_neg (by omega)]

/-- C8, witness: idempotence at the demonstration input — normalizing the
already-normalized demonstration lap returns it unchanged. -/
theorem normalize_idempotent_witness :
    Normalizer.normalize (1/20) Normalizer.demoRaw = .ok Normalizer.demoLap ∧
    Normalizer.normalize (1/20) Normalizer.demoLap.samples = .ok Normalizer.demoLap :=
  ⟨Normalizer.normalize_demo,
    normalize_idempotent (1/20) Normalizer.demoRaw Normalizer.demoLap (by norm_num)
      Normalizer.normalize_demo⟩

/-- C7: on the demonstration lap of total distance 1500 m, aggregateZones
with 3 zones returns exactly the spans from 0 to 500, 500 to 1000 and 1000
to 1500; in general the returned zones are as many as requested, their
spans are the consecutive equal-width intervals covering the full distance
range with no gaps and no overlaps, and they are ordered by start
distance. -/
theorem aggregateZones_spans_and_partition :
    ((Zones.aggregateZones Zones.demoZoneLap 3).map
        (fun z => (z.distanceStart, z.distanceEnd)) =
      [(0, 500), (500, 1000), (1000, 1500)]) ∧
    ∀ (lap : Normalizer.Lap) (n : ℕ), 1 ≤ n →
      (Zones.aggregateZones lap n).length = n ∧
      (∀ i < n, ((Zones.aggregateZones lap n).getD i Zones.dfltZone).distanceStart =
          i * (Zones.totalDistance lap / n) ∧
        ((Zones.aggregateZones lap n).getD i Zones.dfltZone).distanceEnd =
          (i + 1) * (Zones.totalDistance lap / n)) ∧
      ((Zones.aggregateZones lap n).getD (n - 1) Zones.dfltZone).distanceEnd =
        Zones.totalDistance lap ∧
      List.Chain' (fun z z' => z.distanceEnd = z'.distanceStart)
        (Zones.aggregateZones lap n) ∧
      (0 < Zones.totalDistance lap →
        List.Chain' (fun z z' => z.distanceStart < z'.distanceStart)
          (Zones.aggregateZones lap n)) :=
  ⟨Zones.demo_spans, Zones.partition_aux⟩

/-- C7, witness: the partition facts applied to the demonstration lap with
3 zones. -/
theorem aggregateZones_partition_witness :
    (Zones.aggregateZones Zones.demoZoneLap 3).length = 3 ∧
    ((Zones.aggregateZones Zones.demoZoneLap 3).getD 2 Zones.dfltZone).distanceEnd =
      Zones.totalDistance Zones.demoZoneLap :=
  ⟨(aggregateZones_spans_and_partition.2 Zones.demoZoneLap 3 (by norm_num)).1,
    (aggregateZones_spans_and_partition.2 Zones.demoZoneLap 3 (by norm_num)).2.2.1⟩

/-- C10: every reported butterfly-effect impact has an exit speed loss of at
least 5 km/h, the reported list has at most 5 entries sorted in descending
total time loss, and totalPropagatedLoss is the sum of totalTimeLoss over
all impacts that passed the 5 km/h filter — strictly more than the sum over
the reported impacts whenever more than 5 impacts passed the filter. -/
theorem butterfly_impacts_spec :
    (∀ (l : ℕ) (ans : List Butterfly.AnomalyIn),
      (∀ imp ∈ (Butterfly.butterfly l ans).impacts, 5 ≤ imp.exitSpeedLoss) ∧
      (Butterfly.butterfly l ans).impacts.length ≤ 5 ∧
      List.Sorted Butterfly.impactGE (Butterfly.butterfly l ans).impacts ∧
      (Butterfly.butterfly l ans).totalPropagatedLoss =
        ((Butterfly.impacts ans).map (·.totalTimeLoss)).sum ∧
      ((Butterfly.butterfly l ans).impacts.map (·.totalTimeLoss)).sum ≤
        (Butterfly.butterfly l ans).totalPropagatedLoss) ∧
    ∀ (l : ℕ) (ans : List Butterfly.AnomalyIn), 5 < (Butterfly.impacts ans).length →
      ((Butterfly.butterfly l ans).impacts.map (·.totalTimeLoss)).sum <
        (Butterfly.butterfly l ans).totalPropagatedLoss :=
  ⟨Butterfly.butterfly_spec_parts, Butterfly.butterfly_truncation⟩

/-- C10, witness: six identical speed anomalies all pass the filter, the
reported list is capped at 5, and the total propagated loss strictly
exceeds the sum of the reported impacts. -/
theorem butterfly_impacts_witness :
    5 < (Butterfly.impacts Butterfly.demoAnoms).length ∧
    ((Butterfly.butterfly 1 Butterfly.demoAnoms).impacts.map (·.totalTimeLoss)).sum <
      (Butterfly.butterfly 1 Butterfly.demoAnoms).totalPropagatedLoss ∧
    (Butterfly.butterfly 1 Butterfly.demoAnoms).impacts.length ≤ 5 :=
  ⟨by rw [Butterfly.impacts_demo]; norm_num,
    butterfly_impacts_spec.2 1 Butterfly.demoAnoms
      (by rw [Butterfly.impacts_demo]; norm_num),
    (butterfly_impacts_spec.1 1 Butterfly.demoAnoms).2.1⟩
